import Mathlib

/-!
Verification development for the `f1analysis` repository.

The file embeds the two pieces of original logic of `src/f1_analysis.py`
into Lean 4:

* `find_turns` — the turn detector (lines 57–81 of the source): given a
  telemetry table, it collects the positional indices whose brake value
  strictly exceeds `brake_threshold` (`np.where(brake > brake_threshold)[0]`)
  and then, scanning those indices in order, appends the sample's distance
  whenever the speed at that index is strictly below `speed_threshold` and
  the check `event not in turns` passes.  Note that in the source `event`
  is an integer position while `turns` holds distance values, so the
  membership test compares an index against previously appended distances.

* `plot_telemetry_with_turns` — the chart composer (lines 84–129): it
  creates six empty panels, then for each telemetry series in turn looks up
  the series' label, runs `find_turns` with the default thresholds
  (100, 50), plots six traces (Speed, Throttle, Brake, RPM, nGear as
  "Gear", DRS) against Distance, and finally draws on all six panels, for
  every detected turn, a vertical dashed line plus an annotation
  `Turn {turns.index(turn) + 1}`.

Numeric cells are modelled as `Option ℚ`: `some q` is an ordinary float
and `none` models NaN / missing values, whose comparisons with `<`, `>`
and `==` are all false in numpy/pandas.  A missing DataFrame column is a
`none` column (Python `KeyError`, error kind `InputError` below); an
out-of-range positional `.iloc` / list access is the `IndexError` kind.
The rendering state is modelled structurally as the list of drawing
commands issued to each of the six panels; on abort the error carries the
panel state drawn so far, so that partial-figure behaviour is observable.
-/

/-- A numeric cell of a telemetry column: `some q` is a real value,
`none` models NaN / missing data (all numeric comparisons false). -/
abbrev Cell := Option ℚ

/-- A telemetry DataFrame: each column is either present (a list of cells,
one per sample) or absent (`none`, so that looking it up raises). -/
structure Telemetry where
  distance? : Option (List Cell)
  speed? : Option (List Cell)
  brake? : Option (List Cell)
  throttle? : Option (List Cell)
  rpm? : Option (List Cell)
  nGear? : Option (List Cell)
  drs? : Option (List Cell)

/-- Error kinds raised by the Python source: `InputError` models the
`KeyError` from looking up a missing DataFrame column, `IndexError`
models a positional lookup out of range. -/
inductive F1Error where
  | InputError : F1Error
  | IndexError : F1Error
deriving DecidableEq

/-- Positional access `xs.iloc[i]`; out of range raises `IndexError`. -/
def iloc (xs : List Cell) (i : Nat) : Except F1Error Cell :=
  match xs[i]? with
  | some c => .ok c
  | none => .error .IndexError

/-- `cell > q` as numpy evaluates it: false when the cell is NaN. -/
def cellGtQ : Cell → ℚ → Bool
  | some v, q => decide (q < v)
  | none, _ => false

/-- `cell < q` as numpy evaluates it: false when the cell is NaN. -/
def cellLtQ : Cell → ℚ → Bool
  | some v, q => decide (v < q)
  | none, _ => false

/-- Python numeric equality between a stored cell and an integer index,
as used by `event not in turns`: an `int` equals a `float` holding the
same number, and NaN equals nothing. -/
def cellEqNat : Cell → Nat → Bool
  | some v, n => decide (v = (n : ℚ))
  | none, _ => false

/-- `np.where(brake > brake_threshold)[0]` (source line 74): the ordered
list of positions whose brake cell strictly exceeds the threshold. -/
def brake_events (bk : List Cell) (brake_threshold : ℚ) : List Nat :=
  (List.range bk.length).filter (fun i => cellGtQ (bk.getD i none) brake_threshold)

/-- The loop of `find_turns` (source lines 77–79): for each braking event
index, if the speed there is strictly below the threshold and the index
is not a member of the accumulated `turns` list (Python compares the
integer index against the stored distance values), append
`telemetry['Distance'].iloc[event]` — looking the column up lazily, so a
missing Distance column only raises when an append is reached. -/
def find_turns_go (t : Telemetry) (sp : List Cell) (speed_threshold : ℚ) :
    List Nat → List Cell → Except F1Error (List Cell)
  | [], turns => .ok turns
  | event :: rest, turns =>
    match iloc sp event with
    | .error e => .error e
    | .ok s =>
      if cellLtQ s speed_threshold && !(turns.any (fun c => cellEqNat c event)) then
        match t.distance? with
        | none => .error .InputError
        | some dist =>
          match iloc dist event with
          | .error e => .error e
          | .ok d => find_turns_go t sp speed_threshold rest (turns ++ [d])
      else
        find_turns_go t sp speed_threshold rest turns

/-- `find_turns(telemetry, speed_threshold, brake_threshold)` (source
lines 57–81).  The Speed and Brake columns are looked up eagerly (lines
70–71, `KeyError` if absent), the braking events are the positions where
brake strictly exceeds the threshold, and the loop appends distances as
in `find_turns_go`. -/
def find_turns (t : Telemetry) (speed_threshold brake_threshold : ℚ) :
    Except F1Error (List Cell) :=
  match t.speed? with
  | none => .error .InputError
  | some sp =>
    match t.brake? with
    | none => .error .InputError
    | some bk => find_turns_go t sp speed_threshold (brake_events bk brake_threshold) []

/-- The cell of column `c` at row `i`, when both exist. -/
def colCell (c : Option (List Cell)) (i : Nat) : Option Cell :=
  c.bind (fun xs => xs[i]?)

/-- The duplicated-distance series of the specification's scenario:
samples `(0,150,0)`, `(50,90,60)`, `(50,90,70)` as
(distance, speed, brake), with constant auxiliary columns so that the
chart composer can also consume it. -/
def tDup : Telemetry :=
  ⟨some [some 0, some 50, some 50],
   some [some 150, some 90, some 90],
   some [some 0, some 60, some 70],
   some [some 0, some 0, some 0],
   some [some 0, some 0, some 0],
   some [some 0, some 0, some 0],
   some [some 0, some 0, some 0]⟩

/-- A two-sample series in which the second sample's index (1) equals the
first sample's already-emitted distance value (1.0): both samples brake
above 50 at speed below 100, with distances 1 and 7. -/
def tShadow : Telemetry :=
  ⟨some [some 1, some 7],
   some [some 50, some 50],
   some [some 60, some 60],
   none, none, none, none⟩

/-- One-sample series whose brake never exceeds the default threshold;
all seven columns present so the chart composer can draw it fully. -/
def tFull : Telemetry :=
  ⟨some [some 0],
   some [some 150],
   some [some 0],
   some [some 100],
   some [some 11000],
   some [some 3],
   some [some 0]⟩

/-- One-sample series that produces exactly one detected turn at
distance 100 (speed 80 < 100, brake 75 > 50). -/
def tTurn : Telemetry :=
  ⟨some [some 100],
   some [some 80],
   some [some 75],
   some [some 0],
   some [some 10000],
   some [some 2],
   some [some 0]⟩

/-- Series with Speed and Brake present but no Distance column, and no
sample passing the brake test — so the lazy `telemetry['Distance']`
lookup is never reached. -/
def tNoDist : Telemetry :=
  ⟨none, some [some 200], some [some 10], none, none, none, none⟩

/-- Series missing the Speed column. -/
def tNoSpeed : Telemetry :=
  ⟨some [some 0], none, some [some 60], none, none, none, none⟩

/-- Series missing the Brake column (Speed present). -/
def tNoBrake : Telemetry :=
  ⟨some [some 0], some [some 90], none, none, none, none, none⟩

/-- Series with two distinct braking samples at increasing distances
10 and 20, both below the speed threshold. -/
def tSorted : Telemetry :=
  ⟨some [some 10, some 20], some [some 50, some 50], some [some 60, some 70],
   none, none, none, none⟩

/-- A drawing command issued to one panel (axes object): a `plot` of a
trace with its label and color, a vertical reference line (`axvline`), or
a text annotation at an x position. -/
inductive AxCmd where
  | plot (x y : List Cell) (label : String) (color : String)
  | axvline (x : Cell) (color : String) (linestyle : String)
  | annotate (text : String) (x : Cell)
deriving DecidableEq

/-- The rendering state: the list of commands drawn on each panel, in
order.  `plt.subplots(6, 1)` (source line 92) creates six empty
panels. -/
abbrev Figure := List (List AxCmd)

/-- The freshly created figure: six panels with nothing drawn. -/
def initFig : Figure := [[], [], [], [], [], []]

/-- The commands drawn so far on panel `p`. -/
def panelGet (fig : Figure) (p : Nat) : List AxCmd := fig.getD p []

/-- Append one command to panel `p` of the figure. -/
def panelPush : Figure → Nat → AxCmd → Figure
  | [], _, _ => []
  | l :: ls, 0, c => (l ++ [c]) :: ls
  | l :: ls, Nat.succ p, c => l :: panelPush ls p c

/-- Append a command sequence to panel `p`, in order. -/
def pushAll (fig : Figure) (p : Nat) (cs : List AxCmd) : Figure :=
  cs.foldl (fun f c => panelPush f p c) fig

/-- The fixed color palette of the composer (source line 94), cycled by
`i % len(colors)`. -/
def colors : List String :=
  ["orange", "red", "blue", "green", "pink", "grey", "black", "yellow", "brown"]

/-- Python `list.index(v)`: position of the first element equal to `v`
(0 if the list is empty — callers only use it on members). -/
def listIndex (v : Cell) : List Cell → Nat
  | [] => 0
  | c :: cs => if c = v then 0 else listIndex v cs + 1

/-- The number used in the annotation of the `j`-th turn:
`turns.index(turn)` in the source, the index of the first occurrence of
the same distance value; a NaN distance finds itself by object identity,
yielding `j`. -/
def turnLabelIdx (turns : List Cell) (j : Nat) : Nat :=
  match turns.getD j none with
  | some v => listIndex (some v) turns
  | none => j

/-- The marker commands drawn on one panel for a series' turn list
(source lines 110–113): for each turn in order, a gray dashed vertical
line at its distance and a `Turn N` annotation with
`N = turns.index(turn) + 1`. -/
def markerCmds (turns : List Cell) : List AxCmd :=
  (List.range turns.length).flatMap (fun j =>
    [AxCmd.axvline (turns.getD j none) "gray" "--",
     AxCmd.annotate ("Turn " ++ toString (turnLabelIdx turns j + 1)) (turns.getD j none)])

/-- One `ax[p].plot(telemetry['Distance'], telemetry[col], label=..,
color=..)` call: looks up Distance first, then the y column (each a
`KeyError`, i.e. `InputError`, if absent), then appends the command to
panel `p`.  On error the current figure is carried along unchanged. -/
def addPlot (fig : Figure) (p : Nat) (t : Telemetry) (col : Option (List Cell))
    (label color : String) : Except (F1Error × Figure) Figure :=
  match t.distance? with
  | none => .error (.InputError, fig)
  | some xs =>
    match col with
    | none => .error (.InputError, fig)
    | some ys => .ok (panelPush fig p (.plot xs ys label color))

/-- `for a in ax: for turn in turns: a.axvline(..); a.annotate(..)`
(source lines 109–113): the marker commands are appended to each of the
six panels in order. -/
def addMarkers (fig : Figure) (turns : List Cell) : Figure :=
  (List.range 6).foldl (fun f p => pushAll f p (markerCmds turns)) fig

/-- One iteration of the composer loop (source lines 96–113) for series
index `i`: look up `drivers[i]` (Python `IndexError` when the label list
is too short), compute `turns = find_turns(telemetry)` with the default
thresholds, draw the six traces, then the turn markers on all panels.
Any error aborts immediately, carrying the figure as drawn so far. -/
def plot_one (drivers : List String) (i : Nat) (t : Telemetry) (fig : Figure) :
    Except (F1Error × Figure) Figure :=
  match drivers[i]? with
  | none => .error (.IndexError, fig)
  | some driver =>
    let color := colors.getD (i % colors.length) ""
    match find_turns t 100 50 with
    | .error e => .error (e, fig)
    | .ok turns =>
      match addPlot fig 0 t t.speed? (driver ++ " - Speed") color with
      | .error e => .error e
      | .ok f0 =>
        match addPlot f0 1 t t.throttle? (driver ++ " - Throttle") color with
        | .error e => .error e
        | .ok f1 =>
          match addPlot f1 2 t t.brake? (driver ++ " - Brake") color with
          | .error e => .error e
          | .ok f2 =>
            match addPlot f2 3 t t.rpm? (driver ++ " - RPM") color with
            | .error e => .error e
            | .ok f3 =>
              match addPlot f3 4 t t.nGear? (driver ++ " - Gear") color with
              | .error e => .error e
              | .ok f4 =>
                match addPlot f4 5 t t.drs? (driver ++ " - DRS") color with
                | .error e => .error e
                | .ok f5 => .ok (addMarkers f5 turns)

/-- The composer loop over all series (`for i, telemetry in
enumerate(telemetries)`), threading the figure. -/
def plot_go (drivers : List String) : Figure → Nat → List Telemetry →
    Except (F1Error × Figure) Figure
  | fig, _, [] => .ok fig
  | fig, i, t :: rest =>
    match plot_one drivers i t fig with
    | .error e => .error e
    | .ok fig2 => plot_go drivers fig2 (i + 1) rest

/-- `plot_telemetry_with_turns(telemetries, drivers)` (source lines
84–129): six fresh panels, then the loop over the series.  The result is
the final figure; an error carries the error kind and the partially
drawn figure at the moment of the abort. -/
def plot_telemetry_with_turns (telemetries : List Telemetry) (drivers : List String) :
    Except (F1Error × Figure) Figure :=
  plot_go drivers initFig 0 telemetries

/-- C1: the specification's duplicate-collapse scenario.  On the series
with samples `(0,150,0)`, `(50,90,60)`, `(50,90,70)` and thresholds
`(100, 50)` the code returns `[50.0, 50.0]`: the suppression test
`event not in turns` compares the integer index (here 2) against the
emitted distances (`[50.0]`), never matches, and the duplicate distance
is appended a second time — contradicting the documented result `[50]`
and the no-duplicate guarantee. -/
theorem c1_code_eval :
    find_turns tDup 100 50 = .ok [some 50, some 50] ∧
      ¬ (List.Nodup [(some 50 : Cell), some 50]) := by
  constructor
  · rfl
  · decide

/-- C10: an index-shadowing witness.  In `tShadow`, sample index 1 has
brake 60 > 50 and speed 50 < 100, and its distance 7 was never emitted,
yet it is omitted from the result because the membership test checks the
integer index 1 against the already-emitted distance list `[1.0]`. -/
theorem c10_index_shadowing :
    colCell tShadow.brake? 1 = some (some 60) ∧ cellGtQ (some 60) 50 = true ∧
      colCell tShadow.speed? 1 = some (some 50) ∧ cellLtQ (some 50) 100 = true ∧
      colCell tShadow.distance? 1 = some (some 7) ∧
      find_turns tShadow 100 50 = .ok [some 1] ∧
      (some (7 : ℚ) : Cell) ∉ [(some (1 : ℚ) : Cell)] := by
  refine ⟨rfl, by decide, rfl, by decide, rfl, rfl, by decide⟩

/-- C8: the detector is deterministic and stateless — two calls on the
same series with the same thresholds return the same ordered list. -/
theorem c8_deterministic (t : Telemetry) (speed_threshold brake_threshold : ℚ) :
    find_turns t speed_threshold brake_threshold =
      find_turns t speed_threshold brake_threshold := rfl

/-- C4: if every numeric brake value is at or below `brake_threshold`
(NaN cells trivially do not exceed it either, and the empty series is the
special case `bk = []`), no braking event exists and the detector
returns the empty list. -/
theorem c4_no_braking (t : Telemetry) (speed_threshold brake_threshold : ℚ)
    (sp bk : List Cell) (hsp : t.speed? = some sp) (hbk : t.brake? = some bk)
    (hle : ∀ q : ℚ, some q ∈ bk → q ≤ brake_threshold) :
    find_turns t speed_threshold brake_threshold = .ok [] := by
  have hev : brake_events bk brake_threshold = [] := by
    unfold brake_events
    apply List.filter_eq_nil_iff.mpr
    intro i hi
    rw [List.mem_range] at hi
    have hmem : bk.getD i none ∈ bk := by
      rw [List.getD_eq_getElem bk none hi]
      exact List.getElem_mem hi
    cases hcell : bk.getD i none with
    | none => simp [cellGtQ]
    | some q =>
      rw [hcell] at hmem
      have := hle q hmem
      simp [cellGtQ]
      linarith
  unfold find_turns
  rw [hsp, hbk]
  show find_turns_go t sp speed_threshold (brake_events bk brake_threshold) [] = .ok []
  rw [hev]
  rfl

/-- Closed instance of `c4_no_braking`: the one-sample series `tFull`
(brake value 0 ≤ 50) yields the empty turn list. -/
theorem c4_no_braking_witness : find_turns tFull 100 50 = .ok [] := by
  apply c4_no_braking tFull 100 50 _ _ rfl rfl
  intro q hq
  simp [tFull] at hq
  simp [hq]

/-- Successful positional access means the list really holds that cell. -/
theorem iloc_ok_iff {xs : List Cell} {i : Nat} {c : Cell} :
    iloc xs i = .ok c ↔ xs[i]? = some c := by
  unfold iloc
  cases h : xs[i]? <;> simp

/-- Positional access succeeds on every in-range index. -/
theorem iloc_total {xs : List Cell} {i : Nat} (h : i < xs.length) :
    iloc xs i = .ok (xs.getD i none) := by
  rw [iloc_ok_iff, List.getD_eq_getElem xs none h]
  exact List.getElem?_eq_getElem h

/-- Membership in the braking-event list characterised. -/
theorem mem_brake_events {bk : List Cell} {bth : ℚ} {i : Nat}
    (h : i ∈ brake_events bk bth) :
    i < bk.length ∧ cellGtQ (bk.getD i none) bth = true := by
  unfold brake_events at h
  rw [List.mem_filter] at h
  exact ⟨List.mem_range.mp h.1, h.2⟩

/-- The braking events are scanned in strictly increasing index order. -/
theorem brake_events_sorted (bk : List Cell) (bth : ℚ) :
    (brake_events bk bth).Pairwise (· < ·) :=
  (List.pairwise_lt_range _).filter _

/-- Every cell appended by the detector loop was either in the
accumulator already or comes from an index whose speed passes the test
and whose distance cell is exactly the appended value. -/
theorem find_turns_go_sound (t : Telemetry) (sp : List Cell) (sth : ℚ)
    (events : List Nat) (acc turns : List Cell)
    (h : find_turns_go t sp sth events acc = .ok turns) :
    ∀ d ∈ turns, d ∈ acc ∨ ∃ i, i ∈ events ∧
      (∃ s, sp[i]? = some s ∧ cellLtQ s sth = true) ∧
      ∃ dist, t.distance? = some dist ∧ dist[i]? = some d := by
  induction events generalizing acc with
  | nil =>
    simp only [find_turns_go, Except.ok.injEq] at h
    subst h
    intro d hd
    exact Or.inl hd
  | cons e rest ih =>
    simp only [find_turns_go] at h
    cases hil : iloc sp e with
    | error err => rw [hil] at h; cases h
    | ok s =>
      rw [hil] at h
      simp only at h
      by_cases hc : (cellLtQ s sth && !(acc.any fun c => cellEqNat c e)) = true
      · rw [if_pos hc] at h
        cases hdq : t.distance? with
        | none => rw [hdq] at h; cases h
        | some dist =>
          rw [hdq] at h
          simp only at h
          cases hdi : iloc dist e with
          | error err => rw [hdi] at h; cases h
          | ok d0 =>
            rw [hdi] at h
            simp only at h
            intro d hd
            rcases ih (acc ++ [d0]) h d hd with hin | ⟨i, hi, hsv, hdist⟩
            · rcases List.mem_append.mp hin with hin | hin
              · exact Or.inl hin
              · right
                refine ⟨e, List.mem_cons_self e rest, ⟨s, iloc_ok_iff.mp hil, ?_⟩,
                  dist, rfl, ?_⟩
                · exact (Bool.and_eq_true .. ▸ hc).1
                · rw [List.mem_singleton] at hin
                  subst hin
                  exact iloc_ok_iff.mp hdi
            · obtain ⟨dist2, hq2, hi2⟩ := hdist
              rw [hdq] at hq2
              injection hq2 with hq2
              subst hq2
              exact Or.inr ⟨i, List.mem_cons_of_mem e hi, hsv, dist, rfl, hi2⟩
      · rw [if_neg hc] at h
        intro d hd
        rcases ih acc h d hd with hin | ⟨i, hi, hsv, hdist⟩
        · exact Or.inl hin
        · exact Or.inr ⟨i, List.mem_cons_of_mem e hi, hsv, hdist⟩

/-- C2: soundness of the detector — every distance it returns is the
distance cell of some sample index at which brake strictly exceeds
`brake_threshold` and speed is strictly below `speed_threshold`. -/
theorem c2_sound (t : Telemetry) (sth bth : ℚ) (turns : List Cell)
    (h : find_turns t sth bth = .ok turns) :
    ∀ d ∈ turns, ∃ i b s,
      colCell t.brake? i = some b ∧ cellGtQ b bth = true ∧
      colCell t.speed? i = some s ∧ cellLtQ s sth = true ∧
      colCell t.distance? i = some d := by
  unfold find_turns at h
  cases hsp : t.speed? with
  | none => rw [hsp] at h; cases h
  | some sp =>
    rw [hsp] at h
    simp only at h
    cases hbk : t.brake? with
    | none => rw [hbk] at h; cases h
    | some bk =>
      rw [hbk] at h
      simp only at h
      intro d hd
      rcases find_turns_go_sound t sp sth _ [] turns h d hd with hin | ⟨i, hi, ⟨s, hs, hslt⟩, dist, hdq, hdi⟩
      · cases hin
      · obtain ⟨hilen, hgt⟩ := mem_brake_events hi
        refine ⟨i, bk.getD i none, s, ?_, hgt, ?_, hslt, ?_⟩
        · simp only [colCell, Option.bind_some]
          rw [List.getD_eq_getElem bk none hilen]
          exact List.getElem?_eq_getElem hilen
        · simpa [colCell] using hs
        · rw [hdq]
          simpa [colCell] using hdi

/-- Closed instance of `c2_sound` on `tTurn`: its single returned
distance `100` comes from sample 0 with brake 75 > 50 and speed
80 < 100. -/
theorem c2_sound_witness :
    ∃ i b s, colCell tTurn.brake? i = some b ∧ cellGtQ b 50 = true ∧
      colCell tTurn.speed? i = some s ∧ cellLtQ s 100 = true ∧
      colCell tTurn.distance? i = some (some 100) :=
  c2_sound tTurn 100 50 [some 100] rfl (some 100) (by decide)

/-- The detector loop cannot fail when the Distance column is present
and every event index is in range of both the Speed and the Distance
columns. -/
theorem find_turns_go_total (t : Telemetry) (sp dist : List Cell) (sth : ℚ)
    (hdist : t.distance? = some dist) (events : List Nat) (acc : List Cell) :
    (∀ e ∈ events, e < sp.length ∧ e < dist.length) →
    ∃ turns, find_turns_go t sp sth events acc = .ok turns := by
  induction events generalizing acc with
  | nil => exact fun _ => ⟨acc, rfl⟩
  | cons e rest ih =>
    intro hev
    obtain ⟨hsl, hdl⟩ := hev e (List.mem_cons_self e rest)
    have hrest : ∀ e' ∈ rest, e' < sp.length ∧ e' < dist.length :=
      fun e' he' => hev e' (List.mem_cons_of_mem e he')
    simp only [find_turns_go, iloc_total hsl]
    by_cases hc : (cellLtQ (sp.getD e none) sth && !(acc.any fun c => cellEqNat c e)) = true
    · rw [if_pos hc, hdist]
      simp only [iloc_total hdl]
      exact ih (acc ++ [dist.getD e none]) hrest
    · rw [if_neg hc]
      exact ih acc hrest

/-- C5 (amended): Speed or Brake absent raises `InputError` up front; a
missing Distance column is only consulted lazily, so with all three
columns present (and the Speed and Distance columns at least as long as
Brake, as the data-model invariant guarantees) the detector never
raises; and a NaN brake cell is never a candidate event. -/
theorem c5_amended (t : Telemetry) (sth bth : ℚ) :
    (t.speed? = none → find_turns t sth bth = .error .InputError) ∧
    (∀ sp, t.speed? = some sp → t.brake? = none →
      find_turns t sth bth = .error .InputError) ∧
    (∀ sp bk dist, t.speed? = some sp → t.brake? = some bk → t.distance? = some dist →
      bk.length ≤ sp.length → bk.length ≤ dist.length →
      ∃ turns, find_turns t sth bth = .ok turns) ∧
    (∀ bk, t.brake? = some bk → ∀ i, bk.getD i none = none →
      i ∉ brake_events bk bth) := by
  refine ⟨?_, ?_, ?_, ?_⟩
  · intro h
    unfold find_turns
    rw [h]
  · intro sp hsp hbk
    unfold find_turns
    rw [hsp]
    simp only
    rw [hbk]
  · intro sp bk dist hsp hbk hdist hsl hdl
    unfold find_turns
    rw [hsp]
    simp only
    rw [hbk]
    simp only
    apply find_turns_go_total t sp dist sth hdist _ []
    intro e he
    have hlen := (mem_brake_events he).1
    exact ⟨lt_of_lt_of_le hlen hsl, lt_of_lt_of_le hlen hdl⟩
  · intro bk _ i hnone hmem
    have hgt := (mem_brake_events hmem).2
    rw [hnone] at hgt
    simp [cellGtQ] at hgt

/-- C5 counterexample to "fails exactly when a required column is
absent": `tNoDist` has no Distance column, yet — since no sample brakes
above the threshold, so the lazy `telemetry['Distance']` lookup inside
the loop body is never reached — the call returns `[]` without error. -/
theorem c5_counterexample :
    tNoDist.distance? = none ∧ find_turns tNoDist 100 50 = .ok [] :=
  ⟨rfl, rfl⟩

/-- Closed instances of every part of `c5_amended`: missing Speed and
missing Brake raise `InputError`, a fully-columned series raises
nothing, and a NaN brake cell is not an event. -/
theorem c5_amended_witness :
    find_turns tNoSpeed 100 50 = .error .InputError ∧
    find_turns tNoBrake 100 50 = .error .InputError ∧
    (∃ turns, find_turns tFull 100 50 = .ok turns) ∧
    1 ∉ brake_events [some (60 : ℚ), none] 50 :=
  ⟨(c5_amended tNoSpeed 100 50).1 rfl,
   (c5_amended tNoBrake 100 50).2.1 _ rfl rfl,
   (c5_amended tFull 100 50).2.2.1 _ _ _ rfl rfl rfl (by decide) (by decide),
   (c5_amended ⟨none, none, some [some 60, none], none, none, none, none⟩ 100 50).2.2.2
     _ rfl 1 rfl⟩

/-- Index access into a `(· ≤ ·)`-sorted rational list is monotone. -/
theorem getD_mono_of_sorted (qs : List ℚ) (hqs : qs.Pairwise (· ≤ ·))
    {i j : Nat} (hij : i ≤ j) (hj : j < qs.length) :
    qs.getD i 0 ≤ qs.getD j 0 := by
  rcases Nat.lt_or_ge i j with hlt | hge
  · have hi : i < qs.length := lt_trans hlt hj
    rw [List.getD_eq_getElem _ _ hi, List.getD_eq_getElem _ _ hj]
    have := List.pairwise_iff_get.mp hqs ⟨i, hi⟩ ⟨j, hj⟩ hlt
    simpa using this
  · have heq : i = j := le_antisymm hij hge
    subst heq
    exact le_refl _

/-- Sorted-emission invariant of the detector loop: scanning a strictly
increasing event list, with the accumulator holding the distances of an
already-sorted index list all of whose members precede every pending
event, produces the distances of a `(· ≤ ·)`-sorted in-range index
list. -/
theorem find_turns_go_sorted (t : Telemetry) (sp : List Cell) (sth : ℚ) (qs : List ℚ)
    (hdist : t.distance? = some (qs.map some))
    (events : List Nat) (is : List Nat) (acc turns : List Cell) :
    events.Pairwise (· < ·) →
    (∀ i ∈ is, i < qs.length) →
    acc = is.map (fun i => some (qs.getD i 0)) →
    List.Pairwise (· ≤ ·) is →
    (∀ i ∈ is, ∀ e ∈ events, i ≤ e) →
    find_turns_go t sp sth events acc = .ok turns →
    ∃ js : List Nat, (∀ j ∈ js, j < qs.length) ∧ List.Pairwise (· ≤ ·) js ∧
      turns = js.map (fun i => some (qs.getD i 0)) := by
  induction events generalizing is acc with
  | nil =>
    intro _ hjs hacc hsort _ h
    simp only [find_turns_go, Except.ok.injEq] at h
    exact ⟨is, hjs, hsort, h ▸ hacc⟩
  | cons e rest ih =>
    intro hpw hjs hacc hsort hinv h
    simp only [find_turns_go] at h
    cases hil : iloc sp e with
    | error err => rw [hil] at h; cases h
    | ok s =>
      rw [hil] at h
      simp only at h
      by_cases hc : (cellLtQ s sth && !(acc.any fun c => cellEqNat c e)) = true
      · rw [if_pos hc, hdist] at h
        simp only at h
        cases hdi : iloc (qs.map some) e with
        | error err => rw [hdi] at h; cases h
        | ok d =>
          rw [hdi] at h
          simp only at h
          have hq : (qs.map some)[e]? = some d := iloc_ok_iff.mp hdi
          have he_len : e < qs.length := by
            by_contra hcon
            rw [List.getElem?_eq_none (by simpa using Nat.le_of_not_lt hcon)] at hq
            cases hq
          have hd_eq : d = some (qs.getD e 0) := by
            rw [List.getElem?_map, List.getElem?_eq_getElem he_len] at hq
            rw [List.getD_eq_getElem _ _ he_len]
            exact (Option.some_inj.mp hq).symm
          apply ih (is ++ [e]) (acc ++ [d]) (List.pairwise_cons.mp hpw).2
          · intro i hi
            rcases List.mem_append.mp hi with hi | hi
            · exact hjs i hi
            · rw [List.mem_singleton] at hi
              subst hi
              exact he_len
          · rw [hacc, hd_eq]
            simp
          · refine List.pairwise_append.mpr ⟨hsort, List.pairwise_singleton _ _, ?_⟩
            intro a ha b hb
            rw [List.mem_singleton] at hb
            rw [hb]
            exact hinv a ha e (List.mem_cons_self e rest)
          · intro i hi e' he'
            rcases List.mem_append.mp hi with hi | hi
            · exact hinv i hi e' (List.mem_cons_of_mem e he')
            · rw [List.mem_singleton] at hi
              subst hi
              exact le_of_lt ((List.pairwise_cons.mp hpw).1 e' he')
          · exact h
      · rw [if_neg hc] at h
        exact ih is acc (List.pairwise_cons.mp hpw).2 hjs hacc hsort
          (fun i hi e' he' => hinv i hi e' (List.mem_cons_of_mem e he')) h

/-- C9: on a series whose Distance column is a non-decreasing list of
real values, the detector emits distances in scan order, so the returned
list is non-decreasing. -/
theorem c9_sorted (t : Telemetry) (sth bth : ℚ) (qs : List ℚ) (turns : List Cell)
    (hdist : t.distance? = some (qs.map some)) (hqs : qs.Pairwise (· ≤ ·))
    (h : find_turns t sth bth = .ok turns) :
    ∃ rs : List ℚ, turns = rs.map some ∧ rs.Pairwise (· ≤ ·) := by
  unfold find_turns at h
  cases hsp : t.speed? with
  | none => rw [hsp] at h; cases h
  | some sp =>
    rw [hsp] at h
    simp only at h
    cases hbk : t.brake? with
    | none => rw [hbk] at h; cases h
    | some bk =>
      rw [hbk] at h
      simp only at h
      obtain ⟨js, hjs, hsort, hturns⟩ :=
        find_turns_go_sorted t sp sth qs hdist _ [] [] turns
          (brake_events_sorted bk bth) (by simp) rfl List.Pairwise.nil (by simp) h
      refine ⟨js.map (fun i => qs.getD i 0), ?_, ?_⟩
      · rw [hturns, List.map_map]
        rfl
      · rw [List.pairwise_map]
        exact hsort.imp_of_mem (fun ha hb hab => getD_mono_of_sorted qs hqs hab (hjs _ hb))

/-- Closed instance of `c9_sorted`: the two-turn series `tSorted` with
non-decreasing distances `[10, 20]` yields the non-decreasing result
`[10.0, 20.0]`. -/
theorem c9_sorted_witness :
    ∃ rs : List ℚ, [(some 10 : Cell), some 20] = rs.map some ∧ rs.Pairwise (· ≤ ·) :=
  c9_sorted tSorted 100 50 [10, 20] [some 10, some 20] rfl (by decide) rfl

/-- Pushing a command never changes the number of panels. -/
theorem panelPush_length (fig : Figure) (p : Nat) (c : AxCmd) :
    (panelPush fig p c).length = fig.length := by
  induction fig generalizing p with
  | nil => rfl
  | cons l ls ih =>
    cases p with
    | zero => rfl
    | succ p => simp [panelPush, ih]

/-- Pushing a command preserves every command already on any panel. -/
theorem panelGet_panelPush_mem {x : AxCmd} {fig : Figure} {q : Nat}
    (h : x ∈ panelGet fig q) (p : Nat) (c : AxCmd) :
    x ∈ panelGet (panelPush fig p c) q := by
  induction fig generalizing p q with
  | nil => simpa [panelPush] using h
  | cons l ls ih =>
    cases p with
    | zero =>
      cases q with
      | zero =>
        simp [panelGet, panelPush, List.getD_cons_zero] at h ⊢
        exact Or.inl h
      | succ q => simpa [panelGet, panelPush, List.getD_cons_succ] using h
    | succ p =>
      cases q with
      | zero => simpa [panelGet, panelPush, List.getD_cons_zero] using h
      | succ q =>
        simp only [panelGet, panelPush, List.getD_cons_succ] at h ⊢
        exact ih h p

/-- Pushing on an existing panel appends the command to that panel. -/
theorem panelGet_panelPush_self {fig : Figure} {p : Nat} (h : p < fig.length) (c : AxCmd) :
    panelGet (panelPush fig p c) p = panelGet fig p ++ [c] := by
  induction fig generalizing p with
  | nil => cases h
  | cons l ls ih =>
    cases p with
    | zero => simp [panelGet, panelPush, List.getD_cons_zero]
    | succ p =>
      simp only [panelGet, panelPush, List.getD_cons_succ]
      exact ih (Nat.lt_of_succ_lt_succ h)

/-- `pushAll` keeps the panel count. -/
theorem pushAll_length (fig : Figure) (p : Nat) (cs : List AxCmd) :
    (pushAll fig p cs).length = fig.length := by
  induction cs generalizing fig with
  | nil => rfl
  | cons c cs ih =>
    show (pushAll (panelPush fig p c) p cs).length = fig.length
    rw [ih, panelPush_length]

/-- `pushAll` preserves commands already drawn. -/
theorem pushAll_mem_mono {x : AxCmd} {fig : Figure} {q : Nat}
    (h : x ∈ panelGet fig q) (p : Nat) (cs : List AxCmd) :
    x ∈ panelGet (pushAll fig p cs) q := by
  induction cs generalizing fig with
  | nil => exact h
  | cons c cs ih => exact ih (panelGet_panelPush_mem h p c)

/-- `pushAll` on an existing panel draws each pushed command there. -/
theorem pushAll_mem_self {fig : Figure} {p : Nat} (h : p < fig.length)
    {c : AxCmd} {cs : List AxCmd} (hc : c ∈ cs) :
    c ∈ panelGet (pushAll fig p cs) p := by
  induction cs generalizing fig with
  | nil => cases hc
  | cons c0 cs ih =>
    rcases List.mem_cons.mp hc with heq | hmem
    · apply pushAll_mem_mono _ p cs
      rw [panelGet_panelPush_self h c0, heq]
      exact List.mem_append_right _ (List.mem_singleton_self c0)
    · exact ih (by rw [panelPush_length]; exact h) hmem

/-- Folding `pushAll` over a panel list preserves drawn commands. -/
theorem foldl_pushAll_mono {x : AxCmd} {cs : List AxCmd} :
    ∀ (ps : List Nat) (fig : Figure) (q : Nat), x ∈ panelGet fig q →
      x ∈ panelGet (ps.foldl (fun f p => pushAll f p cs) fig) q := by
  intro ps
  induction ps with
  | nil => exact fun fig q h => h
  | cons p ps ih => exact fun fig q h => ih _ _ (pushAll_mem_mono h p cs)

/-- Folding `pushAll` over a panel list keeps the panel count. -/
theorem foldl_pushAll_length {cs : List AxCmd} :
    ∀ (ps : List Nat) (fig : Figure),
      (ps.foldl (fun f p => pushAll f p cs) fig).length = fig.length := by
  intro ps
  induction ps with
  | nil => exact fun fig => rfl
  | cons p ps ih =>
    intro fig
    show (ps.foldl _ (pushAll fig p cs)).length = fig.length
    rw [ih, pushAll_length]

/-- Folding `pushAll` draws each command on every listed panel that is
in range. -/
theorem foldl_pushAll_mem {c : AxCmd} {cs : List AxCmd} (hc : c ∈ cs) :
    ∀ (ps : List Nat) (fig : Figure) (p : Nat), p ∈ ps → p < fig.length →
      c ∈ panelGet (ps.foldl (fun f q => pushAll f q cs) fig) p := by
  intro ps
  induction ps with
  | nil => intro fig p hp; cases hp
  | cons q ps ih =>
    intro fig p hp hlen
    rcases List.mem_cons.mp hp with heq | hp2
    · apply foldl_pushAll_mono ps (pushAll fig q cs) p
      rw [heq]
      exact pushAll_mem_self (heq ▸ hlen) hc
    · exact ih (pushAll fig q cs) p hp2 (by rw [pushAll_length]; exact hlen)

/-- `addMarkers` preserves drawn commands. -/
theorem addMarkers_mem_mono {x : AxCmd} {fig : Figure} {q : Nat}
    (h : x ∈ panelGet fig q) (turns : List Cell) :
    x ∈ panelGet (addMarkers fig turns) q :=
  foldl_pushAll_mono _ _ _ h

/-- `addMarkers` keeps the panel count. -/
theorem addMarkers_length (fig : Figure) (turns : List Cell) :
    (addMarkers fig turns).length = fig.length :=
  foldl_pushAll_length _ _

/-- `addMarkers` draws every marker command on every panel `p < 6` of a
six-panel figure. -/
theorem addMarkers_mem_self {fig : Figure} (h6 : fig.length = 6) {p : Nat} (hp : p < 6)
    {c : AxCmd} {turns : List Cell} (hc : c ∈ markerCmds turns) :
    c ∈ panelGet (addMarkers fig turns) p :=
  foldl_pushAll_mem hc (List.range 6) fig p (List.mem_range.mpr hp) (by rw [h6]; exact hp)

/-- A successful `addPlot` keeps the panel count and every command
already drawn. -/
theorem addPlot_ok {fig f2 : Figure} {p : Nat} {t : Telemetry} {col : Option (List Cell)}
    {label color : String} (h : addPlot fig p t col label color = .ok f2) :
    f2.length = fig.length ∧ ∀ x q, x ∈ panelGet fig q → x ∈ panelGet f2 q := by
  unfold addPlot at h
  cases hd : t.distance? with
  | none => rw [hd] at h; cases h
  | some xs =>
    rw [hd] at h
    simp only at h
    cases hc : col with
    | none => rw [hc] at h; cases h
    | some ys =>
      rw [hc] at h
      simp only [Except.ok.injEq] at h
      subst h
      exact ⟨panelPush_length fig p _, fun x q hx => panelGet_panelPush_mem hx p _⟩

/-- Decomposition of a successful composer iteration: the label lookup
succeeded, the detector returned some `turns`, and the result figure is
`addMarkers` applied to a figure that extends the input figure panelwise
and has the same panel count. -/
theorem plot_one_ok {drivers : List String} {i : Nat} {t : Telemetry} {fig f2 : Figure}
    (h : plot_one drivers i t fig = .ok f2) :
    ∃ driver turns f5,
      drivers[i]? = some driver ∧
      find_turns t 100 50 = .ok turns ∧
      f2 = addMarkers f5 turns ∧
      f5.length = fig.length ∧
      ∀ x q, x ∈ panelGet fig q → x ∈ panelGet f5 q := by
  unfold plot_one at h
  cases hd : drivers[i]? with
  | none => rw [hd] at h; cases h
  | some driver =>
    rw [hd] at h
    simp only at h
    cases ht : find_turns t 100 50 with
    | error e => rw [ht] at h; cases h
    | ok turns =>
      rw [ht] at h
      simp only at h
      cases h0 : addPlot fig 0 t t.speed? (driver ++ " - Speed")
          (colors.getD (i % colors.length) "") with
      | error e => rw [h0] at h; cases h
      | ok f0 =>
        rw [h0] at h
        simp only at h
        cases h1 : addPlot f0 1 t t.throttle? (driver ++ " - Throttle")
            (colors.getD (i % colors.length) "") with
        | error e => rw [h1] at h; cases h
        | ok f1 =>
          rw [h1] at h
          simp only at h
          cases h2 : addPlot f1 2 t t.brake? (driver ++ " - Brake")
              (colors.getD (i % colors.length) "") with
          | error e => rw [h2] at h; cases h
          | ok f2x =>
            rw [h2] at h
            simp only at h
            cases h3 : addPlot f2x 3 t t.rpm? (driver ++ " - RPM")
                (colors.getD (i % colors.length) "") with
            | error e => rw [h3] at h; cases h
            | ok f3 =>
              rw [h3] at h
              simp only at h
              cases h4 : addPlot f3 4 t t.nGear? (driver ++ " - Gear")
                  (colors.getD (i % colors.length) "") with
              | error e => rw [h4] at h; cases h
              | ok f4 =>
                rw [h4] at h
                simp only at h
                cases h5 : addPlot f4 5 t t.drs? (driver ++ " - DRS")
                    (colors.getD (i % colors.length) "") with
                | error e => rw [h5] at h; cases h
                | ok f5 =>
                  rw [h5] at h
                  simp only [Except.ok.injEq] at h
                  refine ⟨driver, turns, f5, rfl, rfl, h.symm, ?_, ?_⟩
                  · rw [(addPlot_ok h5).1, (addPlot_ok h4).1, (addPlot_ok h3).1,
                      (addPlot_ok h2).1, (addPlot_ok h1).1, (addPlot_ok h0).1]
                  · intro x q hx
                    exact (addPlot_ok h5).2 x q ((addPlot_ok h4).2 x q
                      ((addPlot_ok h3).2 x q ((addPlot_ok h2).2 x q
                        ((addPlot_ok h1).2 x q ((addPlot_ok h0).2 x q hx)))))

/-- A successful composer iteration keeps the panel count. -/
theorem plot_one_ok_length {drivers : List String} {i : Nat} {t : Telemetry}
    {fig f2 : Figure} (h : plot_one drivers i t fig = .ok f2) :
    f2.length = fig.length := by
  obtain ⟨_, turns, f5, _, _, hf2, hlen, _⟩ := plot_one_ok h
  rw [hf2, addMarkers_length, hlen]

/-- A successful composer iteration preserves every drawn command. -/
theorem plot_one_mem_mono {drivers : List String} {i : Nat} {t : Telemetry}
    {fig f2 : Figure} {x : AxCmd} {q : Nat}
    (hx : x ∈ panelGet fig q) (h : plot_one drivers i t fig = .ok f2) :
    x ∈ panelGet f2 q := by
  obtain ⟨_, turns, f5, _, _, hf2, _, hmono⟩ := plot_one_ok h
  rw [hf2]
  exact addMarkers_mem_mono (hmono x q hx) turns

/-- A successful composer iteration for a series draws each of that
series' marker commands on every panel `p < 6`. -/
theorem plot_one_markers {drivers : List String} {i : Nat} {t : Telemetry}
    {fig f2 : Figure} (h : plot_one drivers i t fig = .ok f2) (h6 : fig.length = 6)
    {turns : List Cell} (hturns : find_turns t 100 50 = .ok turns)
    {c : AxCmd} (hc : c ∈ markerCmds turns) {p : Nat} (hp : p < 6) :
    c ∈ panelGet f2 p := by
  obtain ⟨dr, turns2, f5, hd, ht2, hf2, hlen, _⟩ := plot_one_ok h
  rw [hturns] at ht2
  injection ht2 with ht2
  subst ht2
  rw [hf2]
  exact addMarkers_mem_self (by rw [hlen, h6]) hp hc

/-- The composer loop preserves every drawn command. -/
theorem plot_go_mem_mono {drivers : List String} {x : AxCmd} {q : Nat} :
    ∀ (ts : List Telemetry) (fig fig2 : Figure) (i : Nat),
      x ∈ panelGet fig q → plot_go drivers fig i ts = .ok fig2 →
      x ∈ panelGet fig2 q := by
  intro ts
  induction ts with
  | nil =>
    intro fig fig2 i hm h
    simp only [plot_go, Except.ok.injEq] at h
    rw [← h]
    exact hm
  | cons t rest ih =>
    intro fig fig2 i hm h
    simp only [plot_go] at h
    cases h1 : plot_one drivers i t fig with
    | error e => rw [h1] at h; cases h
    | ok figm =>
      rw [h1] at h
      simp only at h
      exact ih figm fig2 (i + 1) (plot_one_mem_mono hm h1) h

/-- Main marker lemma for the composer loop: if the loop succeeds from a
six-panel figure, then for every series it visited, every marker command
of that series' detected turns is on every panel of the result. -/
theorem plot_go_markers {drivers : List String} :
    ∀ (ts : List Telemetry) (fig fig2 : Figure) (i0 : Nat),
      fig.length = 6 → plot_go drivers fig i0 ts = .ok fig2 →
      ∀ (k : Nat) (t : Telemetry), ts[k]? = some t →
      ∀ turns, find_turns t 100 50 = .ok turns →
      ∀ c ∈ markerCmds turns, ∀ p < 6, c ∈ panelGet fig2 p := by
  intro ts
  induction ts with
  | nil =>
    intro fig fig2 i0 h6 h k t hk
    cases hk
  | cons t0 rest ih =>
    intro fig fig2 i0 h6 h k t hk turns hturns c hc p hp
    simp only [plot_go] at h
    cases h1 : plot_one drivers i0 t0 fig with
    | error e => rw [h1] at h; cases h
    | ok figm =>
      rw [h1] at h
      simp only at h
      cases k with
      | zero =>
        have ht : t0 = t := by simpa using hk
        subst ht
        have hmem : c ∈ panelGet figm p := plot_one_markers h1 h6 hturns hc hp
        exact plot_go_mem_mono rest figm fig2 (i0 + 1) hmem h
      | succ k =>
        have h6m : figm.length = 6 := by rw [plot_one_ok_length h1]; exact h6
        exact ih figm fig2 (i0 + 1) h6m h k t (by simpa using hk) turns hturns c hc p hp

/-- C7 (amended): when the composer succeeds, every series was run
through the detector with the default thresholds (100, 50), and each of
its detected turns gets, on every one of the six panels, a gray dashed
vertical line at that turn's distance and an annotation
`Turn N` where `N = turns.index(turn) + 1` — one more than the position
of the first occurrence of that distance in the series' own turn list,
which equals the turn's 1-based ordinal whenever the list has no
duplicate distances; the numbering restarts with each series. -/
theorem c7_markers (ts : List Telemetry) (ds : List String) (fig : Figure)
    (h : plot_telemetry_with_turns ts ds = .ok fig)
    (k : Nat) (t : Telemetry) (hk : ts[k]? = some t)
    (turns : List Cell) (hturns : find_turns t 100 50 = .ok turns)
    (j : Nat) (v : Cell) (hj : turns[j]? = some v) (p : Nat) (hp : p < 6) :
    AxCmd.axvline v "gray" "--" ∈ panelGet fig p ∧
    AxCmd.annotate ("Turn " ++ toString (turnLabelIdx turns j + 1)) v ∈ panelGet fig p := by
  have hjlen : j < turns.length := by
    by_contra hcon
    rw [List.getElem?_eq_none (Nat.le_of_not_lt hcon)] at hj
    cases hj
  have hgd : turns.getD j none = v := by
    rw [List.getD_eq_getElem _ _ hjlen]
    rw [List.getElem?_eq_getElem hjlen] at hj
    exact Option.some_inj.mp hj
  have hax : AxCmd.axvline v "gray" "--" ∈ markerCmds turns := by
    unfold markerCmds
    rw [List.mem_flatMap]
    exact ⟨j, List.mem_range.mpr hjlen, by rw [hgd]; exact List.mem_cons_self _ _⟩
  have han : AxCmd.annotate ("Turn " ++ toString (turnLabelIdx turns j + 1)) v
      ∈ markerCmds turns := by
    unfold markerCmds
    rw [List.mem_flatMap]
    refine ⟨j, List.mem_range.mpr hjlen, ?_⟩
    rw [hgd]
    exact List.mem_cons_of_mem _ (List.mem_singleton_self _)
  unfold plot_telemetry_with_turns at h
  exact ⟨plot_go_markers ts initFig fig 0 rfl h k t hk turns hturns _ hax p hp,
         plot_go_markers ts initFig fig 0 rfl h k t hk turns hturns _ han p hp⟩

/-- Closed instance of `c7_markers`: rendering `tTurn` draws its single
turn marker and `Turn 1` annotation on panel 3 (and every other). -/
theorem c7_markers_witness :
    ∃ F, plot_telemetry_with_turns [tTurn] ["X"] = .ok F ∧
      AxCmd.axvline (some 100) "gray" "--" ∈ panelGet F 3 ∧
      AxCmd.annotate ("Turn " ++ toString (turnLabelIdx [some 100] 0 + 1)) (some 100)
        ∈ panelGet F 3 := by
  obtain ⟨F, hF⟩ : ∃ F, plot_telemetry_with_turns [tTurn] ["X"] = .ok F := ⟨_, rfl⟩
  obtain ⟨h1, h2⟩ := c7_markers [tTurn] ["X"] F hF 0 tTurn rfl [some 100] rfl
    0 (some 100) rfl 3 (by decide)
  exact ⟨F, hF, h1, h2⟩

/-- C7 counterexample to labelling by 1-based ordinal: on `tDup` the
detector returns the duplicate list `[50.0, 50.0]`, and the second
detected turn (ordinal 2) is annotated `Turn 1` — `turns.index(50.0)`
finds the first occurrence — so no `Turn 2` annotation exists on any
panel. -/
theorem c7_counterexample :
    find_turns tDup 100 50 = .ok [some 50, some 50] ∧
    ∃ F, plot_telemetry_with_turns [tDup] ["A"] = .ok F ∧
      AxCmd.annotate "Turn 1" (some 50) ∈ panelGet F 0 ∧
      AxCmd.annotate "Turn 2" (some 50) ∉ panelGet F 0 := by
  refine ⟨rfl, _, rfl, by decide, by decide⟩

/-- C6 counterexample to all-or-nothing rendering: with two valid series
and one label, the composer draws all six traces of the first series,
then aborts on the second series' label lookup, leaving the partially
drawn figure (panel 0 nonempty, figure not the fresh six-empty-panel
state). -/
theorem c6_counterexample :
    ∃ F, plot_telemetry_with_turns [tFull, tFull] ["A"] = .error (.IndexError, F) ∧
      F ≠ initFig ∧ panelGet F 0 ≠ [] := by
  refine ⟨_, rfl, by decide, by decide⟩

/-- C6 (amended): an abort keeps whatever was drawn before the failing
step — nothing is rolled back; in particular, only when the failure
precedes any drawing (here: empty label list with a nonempty series
list, failing at the very first label lookup) are all six panels still
empty. -/
theorem c6_amended (t : Telemetry) (ts : List Telemetry) :
    plot_telemetry_with_turns (t :: ts) [] = .error (.IndexError, initFig) := rfl

/-- A successful composer iteration implies the label index was in
range. -/
theorem plot_one_label_lt {drivers : List String} {i : Nat} {t : Telemetry}
    {fig f2 : Figure} (h : plot_one drivers i t fig = .ok f2) : i < drivers.length := by
  obtain ⟨driver, _, _, hd, _⟩ := plot_one_ok h
  by_contra hcon
  rw [List.getElem?_eq_none (Nat.le_of_not_lt hcon)] at hd
  cases hd

/-- When the label list runs out before the series list, the composer
loop always aborts with an error. -/
theorem plot_go_overrun {drivers : List String} :
    ∀ (ts : List Telemetry) (fig : Figure) (i : Nat), ts ≠ [] →
      drivers.length < i + ts.length →
      ∃ e f, plot_go drivers fig i ts = .error (e, f) := by
  intro ts
  induction ts with
  | nil => intro fig i hne; exact absurd rfl hne
  | cons t rest ih =>
    intro fig i _ hlen
    simp only [plot_go]
    cases h1 : plot_one drivers i t fig with
    | error ef => exact ⟨ef.1, ef.2, rfl⟩
    | ok figm =>
      have hi : i < drivers.length := plot_one_label_lt h1
      cases rest with
      | nil =>
        simp only [List.length_cons, List.length_nil] at hlen
        omega
      | cons t2 rest2 =>
        show ∃ e f, plot_go drivers figm (i + 1) (t2 :: rest2) = .error (e, f)
        apply ih figm (i + 1) (by simp)
        simp only [List.length_cons] at hlen ⊢
        omega

/-- Labels beyond the series count are never read: appending extra
labels does not change the composer loop's result. -/
theorem plot_go_append_labels {drivers extra : List String} :
    ∀ (ts : List Telemetry) (fig : Figure) (i : Nat), i + ts.length ≤ drivers.length →
      plot_go (drivers ++ extra) fig i ts = plot_go drivers fig i ts := by
  intro ts
  induction ts with
  | nil => intro fig i _; rfl
  | cons t rest ih =>
    intro fig i hlen
    have hi : i < drivers.length := by
      simp only [List.length_cons] at hlen
      omega
    have hd : (drivers ++ extra)[i]? = drivers[i]? := List.getElem?_append_left hi
    have h1 : plot_one (drivers ++ extra) i t fig = plot_one drivers i t fig := by
      unfold plot_one
      rw [hd]
    simp only [plot_go, h1]
    cases h2 : plot_one drivers i t fig with
    | error e => rfl
    | ok figm =>
      exact ih figm (i + 1) (by simp only [List.length_cons] at hlen ⊢; omega)

/-- C3 (amended): the composer fails whenever `series_list` is strictly
longer than `labels` (the out-of-range lookup `drivers[i]`, the code's
manifestation of the `LengthMismatchError` kind); when `labels` is at
least as long as `series_list`, the surplus labels are never read, so a
length mismatch in that direction causes no failure. -/
theorem c3_mismatch (ts : List Telemetry) (ds : List String) :
    (ds.length < ts.length →
      ∃ e fig, plot_telemetry_with_turns ts ds = .error (e, fig)) ∧
    (∀ extra : List String, ts.length ≤ ds.length →
      plot_telemetry_with_turns ts (ds ++ extra) = plot_telemetry_with_turns ts ds) := by
  constructor
  · intro hlen
    have hne : ts ≠ [] := by
      cases ts
      · simp at hlen
      · simp
    exact plot_go_overrun ts initFig 0 hne (by omega)
  · intro extra hlen
    exact plot_go_append_labels ts initFig 0 (by omega)

/-- C3 counterexample to "fails whenever the lengths differ": an empty
series list with one label differs in length, yet the call completes
normally with the empty six-panel figure. -/
theorem c3_counterexample :
    ([] : List Telemetry).length ≠ ["A"].length ∧
    plot_telemetry_with_turns [] ["A"] = .ok initFig :=
  ⟨by decide, rfl⟩

/-- Closed instances of both parts of `c3_mismatch`: three series with
two labels abort with an error, and an unused extra label changes
nothing. -/
theorem c3_mismatch_witness :
    (∃ e fig, plot_telemetry_with_turns [tTurn, tTurn, tTurn] ["a", "b"] =
      .error (e, fig)) ∧
    plot_telemetry_with_turns [tTurn] (["a"] ++ ["c"]) =
      plot_telemetry_with_turns [tTurn] ["a"] :=
  ⟨(c3_mismatch [tTurn, tTurn, tTurn] ["a", "b"]).1 (by decide),
   (c3_mismatch [tTurn] ["a"]).2 ["c"] (by decide)⟩
